import Mathlib

/-!
Shallow embedding of the todo-tui application (src/src/main.rs).

The embedding follows the Rust source closely:

* `StateList T` embeds `struct StateList<T>` (a `tui::ListState`, i.e. an
  optional selected index, plus a `Vec<T>`).  The Rust methods `next` and
  `previous` compute `self.items.len() - 1` on `usize`; when `len == 0`
  that subtraction underflows (a panic in debug builds).  We model the
  checked subtraction explicitly with `usizeSub`, so `next`/`previous`
  return `none` exactly when the Rust code underflows.
* `App` embeds `struct App`; strings are modelled as `List Char`
  (the Rust code only uses char-level operations: `push`, `pop`,
  `chars().count()`).  `input_width` is a `u16` in Rust and the cast
  `as u16` truncates, modelled by `% 65536` in `App.set_input_width`.
* `handle_key` embeds the key-dispatch `match` inside `run_app`
  (lines 122-164 of main.rs): one step of the event loop.  `Step.quit`
  models `return Ok(())`, `Step.crash` models an arithmetic underflow
  inside `StateList.next`/`previous`.
* `runKeys` iterates `handle_key` over a list of key events, as the
  event loop does.
* `mainModel` embeds the control flow of `fn main` (lines 95-116):
  every fallible terminal-driver call is a parameter of `TerminalEnv`,
  `?` propagation and the final `if let Err(err) = res { println! }`
  are reproduced, and the process exit code is derived from the
  `Result` that `main` returns (`Ok` ↦ 0, `Err` ↦ 1).
-/

/-- Checked `usize` subtraction: `none` models the overflow/underflow
condition that panics in Rust debug builds. -/
def usizeSub (a b : Nat) : Option Nat :=
  if b ≤ a then some (a - b) else none

/-- Embeds `struct StateList<T>`: `state.selected()` and `items`. -/
structure StateList (T : Type) where
  selected : Option Nat
  items : List T
deriving DecidableEq, Repr

namespace StateList

/-- Embeds `StateList::with_items` (selection starts as `None`). -/
def with_items {T : Type} (items : List T) : StateList T :=
  ⟨none, items⟩

/-- Embeds `StateList::next`.  `none` is the underflow of
`self.items.len() - 1` (only possible when `items` is empty and an
index is selected). -/
def next {T : Type} (l : StateList T) : Option (StateList T) :=
  match l.selected with
  | some i =>
      (usizeSub l.items.length 1).map fun m =>
        { l with selected := some (if m ≤ i then 0 else i + 1) }
  | none => some { l with selected := some 0 }

/-- Embeds `StateList::previous`.  `none` is the underflow of
`self.items.len() - 1` (only possible when `items` is empty and
index `0` is selected; `i - 1` for `i ≠ 0` never underflows). -/
def previous {T : Type} (l : StateList T) : Option (StateList T) :=
  match l.selected with
  | some i =>
      if i = 0 then
        (usizeSub l.items.length 1).map fun m => { l with selected := some m }
      else
        some { l with selected := some (i - 1) }
  | none => some { l with selected := some 0 }

/-- Embeds `StateList::unselect`. -/
def unselect {T : Type} (l : StateList T) : StateList T :=
  { l with selected := none }

/-- Embeds `StateList::push`. -/
def push {T : Type} (l : StateList T) (value : T) : StateList T :=
  { l with items := l.items ++ [value] }

end StateList

/-- Embeds `enum InputMode`. -/
inductive InputMode where
  | Normal
  | Editing
deriving DecidableEq, Repr

/-- Embeds `struct App`.  The item type `(String, usize)` becomes
`List Char × Nat`. -/
structure App where
  popup_input : List Char
  input_mode : InputMode
  input_width : Nat
  items : StateList (List Char × Nat)
  show_popup : Bool
deriving DecidableEq, Repr

namespace App

/-- Embeds `App::new`. -/
def new : App :=
  { items := StateList.with_items []
    input_mode := InputMode.Normal
    input_width := 0
    show_popup := false
    popup_input := [] }

/-- Embeds `App::set_input_width`: `popup_input.chars().count() as u16`
(the `as u16` cast truncates mod `2^16`). -/
def set_input_width (a : App) : App :=
  { a with input_width := a.popup_input.length % 65536 }

/-- Embeds `App::push`: appends `(popup_input, 1)` to the item list. -/
def push (a : App) : App :=
  { a with items := a.items.push (a.popup_input, 1) }

end App

/-- The key codes the `run_app` match distinguishes (`crossterm`'s
`KeyCode`); every other code falls into `Other` and hits the wildcard
arms. -/
inductive KeyCode where
  | Char (c : Char)
  | Esc
  | Enter
  | Left
  | Down
  | Up
  | Backspace
  | Other
deriving DecidableEq, Repr

/-- The modifier sets the `run_app` match distinguishes: the constants
`KeyModifiers::NONE` and `KeyModifiers::SHIFT` are matched exactly,
every other modifier combination only ever meets wildcard patterns. -/
inductive KeyModifiers where
  | NONE
  | SHIFT
  | OTHER
deriving DecidableEq, Repr

/-- Result of one iteration of the event loop body: continue with a new
state, return from `run_app` (`Step.quit`), or panic on an arithmetic
underflow (`Step.crash`). -/
inductive Step where
  | cont (a : App)
  | quit
  | crash
deriving DecidableEq, Repr

/-- Lifts the optional result of `StateList.next`/`previous` into a
`Step` for the app whose `items` field it replaces. -/
def stepItems (a : App) : Option (StateList (List Char × Nat)) → Step
  | some l => Step.cont { a with items := l }
  | none => Step.crash

/-- Embeds the `InputMode::Normal` arm of the dispatch in `run_app`
(main.rs lines 123-135), pattern order preserved. -/
def normalStep (a : App) (code : KeyCode) (m : KeyModifiers) : Step :=
  match code, m with
  | KeyCode.Char c, KeyModifiers.NONE =>
      if c = 'p' then
        Step.cont { a with show_popup := !a.show_popup, input_mode := InputMode.Editing }
      else
        Step.cont a
  | KeyCode.Esc, KeyModifiers.NONE => Step.quit
  | KeyCode.Left, _ => Step.cont { a with items := a.items.unselect }
  | KeyCode.Down, _ => stepItems a a.items.next
  | KeyCode.Up, _ => stepItems a a.items.previous
  | _, _ => Step.cont a

/-- Embeds the `InputMode::Editing` arm of the dispatch in `run_app`
(main.rs lines 136-163), pattern order preserved.  Note that the
`Esc` arm clears the buffer but does not call `set_input_width`,
and the `Backspace` arm is not guarded by `show_popup`. -/
def editingStep (a : App) (code : KeyCode) (m : KeyModifiers) : Step :=
  match code, m with
  | KeyCode.Enter, KeyModifiers.SHIFT => Step.cont a
  | KeyCode.Enter, KeyModifiers.NONE =>
      Step.cont
        (App.set_input_width
          { (App.push { a with show_popup := !a.show_popup }) with
              popup_input := [], input_mode := InputMode.Normal })
  | KeyCode.Char c, _ =>
      if a.show_popup then
        Step.cont (App.set_input_width { a with popup_input := a.popup_input ++ [c] })
      else
        Step.cont a
  | KeyCode.Backspace, KeyModifiers.NONE =>
      Step.cont (App.set_input_width { a with popup_input := a.popup_input.dropLast })
  | KeyCode.Esc, KeyModifiers.NONE =>
      if a.show_popup then
        Step.cont { a with popup_input := [], input_mode := InputMode.Normal,
                           show_popup := !a.show_popup }
      else
        Step.cont a
  | _, _ => Step.cont a

/-- Embeds one full iteration of the event-loop body of `run_app`:
dispatch on the current `input_mode`. -/
def handle_key (a : App) (code : KeyCode) (m : KeyModifiers) : Step :=
  match a.input_mode with
  | InputMode.Normal => normalStep a code m
  | InputMode.Editing => editingStep a code m

/-- Runs `handle_key` over a sequence of key events, stopping at a
`quit` or a `crash`, as the loop in `run_app` does. -/
def runKeys (a : App) : List (KeyCode × KeyModifiers) → Step
  | [] => Step.cont a
  | k :: ks =>
      match handle_key a k.1 k.2 with
      | Step.cont a2 => runKeys a2 ks
      | Step.quit => Step.quit
      | Step.crash => Step.crash

/-- Results of the fallible terminal-driver calls performed by
`fn main` (main.rs lines 95-116), in program order.  `Except String
Unit` stands for Rust's `Result<(), io::Error>`; the string is the
error's diagnostic text. -/
structure TerminalEnv where
  enable_raw_mode : Except String Unit
  enter_alt_screen : Except String Unit
  terminal_new : Except String Unit
  run_app_result : Except String Unit
  disable_raw_mode : Except String Unit
  leave_alt_screen : Except String Unit
  show_cursor : Except String Unit

/-- Observable outcome of the process: its exit code and the
diagnostics printed.  A Rust `main () -> Result` that returns `Err(e)`
makes the runtime print `e` and exit with code 1; returning `Ok(())`
exits with code 0. -/
structure MainOutcome where
  exit_code : Nat
  printed : List String
deriving DecidableEq

/-- Embeds the control flow of `fn main` (main.rs lines 95-116): the
setup calls propagate errors with `?`; `run_app`'s result is stored in
`res`; the teardown calls propagate errors with `?`; then
`if let Err(err) = res { println!("{:?}", err) }` and `Ok(())`. -/
def mainModel (env : TerminalEnv) : MainOutcome :=
  match env.enable_raw_mode with
  | Except.error e => ⟨1, [e]⟩
  | Except.ok _ =>
  match env.enter_alt_screen with
  | Except.error e => ⟨1, [e]⟩
  | Except.ok _ =>
  match env.terminal_new with
  | Except.error e => ⟨1, [e]⟩
  | Except.ok _ =>
  match env.disable_raw_mode with
  | Except.error e => ⟨1, [e]⟩
  | Except.ok _ =>
  match env.leave_alt_screen with
  | Except.error e => ⟨1, [e]⟩
  | Except.ok _ =>
  match env.show_cursor with
  | Except.error e => ⟨1, [e]⟩
  | Except.ok _ =>
  match env.run_app_result with
  | Except.error e => ⟨0, [e]⟩
  | Except.ok _ => ⟨0, []⟩

/-- A `TerminalEnv` in which every terminal-driver call succeeds and
the event loop ends with the quit command of the user. -/
def quietEnv : TerminalEnv :=
  ⟨Except.ok (), Except.ok (), Except.ok (), Except.ok (),
   Except.ok (), Except.ok (), Except.ok ()⟩

/-- Iterates `StateList.next` a given number of times, propagating the
underflow condition. -/
def nextN {T : Type} : Nat → StateList T → Option (StateList T)
  | 0, l => some l
  | n + 1, l => l.next.bind (nextN n)

/-- Whether the app is in `Editing` mode, as a boolean. -/
def InputMode.isEditing : InputMode → Bool
  | InputMode.Normal => false
  | InputMode.Editing => true

/-- The mode/popup synchronization invariant, lifted to a `Step`:
it must hold of any state the loop continues with. -/
def stepSync : Step → Prop
  | Step.cont a => a.show_popup = a.input_mode.isEditing
  | Step.quit => True
  | Step.crash => True

/-- The application state reached from `App.new` by pressing `p`. -/
def afterP : App :=
  { popup_input := []
    input_mode := InputMode.Editing
    input_width := 0
    items := ⟨none, []⟩
    show_popup := true }

/-- An `Editing` state whose popup is hidden (unreachable from
`App.new`, but a legal value of the `App` type), with buffer `"a"`. -/
def hiddenEditingApp : App :=
  { popup_input := ['a']
    input_mode := InputMode.Editing
    input_width := 1
    items := ⟨none, []⟩
    show_popup := false }

/-- An `Editing` state with visible popup and buffer `"abc"`. -/
def editingAbcApp : App :=
  { popup_input := ['a', 'b', 'c']
    input_mode := InputMode.Editing
    input_width := 3
    items := ⟨some 0, [(['x'], 1)]⟩
    show_popup := true }

/-- C4: from the initial state, the key sequence `p`, `m`, `i`, `l`,
`k`, `Enter` (no modifier) leaves the application with exactly one
item `("milk", 1)`, mode `Normal`, popup hidden, and an empty buffer
(and, in fact, width 0 and no selection). -/
theorem roundTrip_milk :
    runKeys App.new
      [(KeyCode.Char 'p', KeyModifiers.NONE),
       (KeyCode.Char 'm', KeyModifiers.NONE),
       (KeyCode.Char 'i', KeyModifiers.NONE),
       (KeyCode.Char 'l', KeyModifiers.NONE),
       (KeyCode.Char 'k', KeyModifiers.NONE),
       (KeyCode.Enter, KeyModifiers.NONE)] =
    Step.cont
      { popup_input := []
        input_mode := InputMode.Normal
        input_width := 0
        items := ⟨none, [(['m', 'i', 'l', 'k'], 1)]⟩
        show_popup := false } := by
  decide

/-- C10: on the empty list with nothing selected, `next` and
`previous` both succeed and select index 0 (rather than staying
unselected), leaving the empty items sequence unchanged. -/
theorem empty_unselected_nav_selects_zero (T : Type) :
    (StateList.with_items ([] : List T)).next = some ⟨some 0, []⟩ ∧
    (StateList.with_items ([] : List T)).previous = some ⟨some 0, []⟩ :=
  ⟨rfl, rfl⟩

/-- Instantiation of `empty_unselected_nav_selects_zero` at a concrete
item type. -/
theorem empty_unselected_nav_selects_zero_nat :
    (StateList.with_items ([] : List Nat)).next = some ⟨some 0, []⟩ ∧
    (StateList.with_items ([] : List Nat)).previous = some ⟨some 0, []⟩ :=
  empty_unselected_nav_selects_zero Nat

/-- C2 fails on the code: on the empty list with index 0 selected
(a state reachable from `App.new` by pressing `Down` twice), both
`next` and `previous` evaluate `items.len() - 1` with `len == 0`,
an arithmetic underflow (`none` in the embedding, a panic in Rust
debug builds); at the application level the second `Down` crashes the
loop instead of being a defined no-op. -/
theorem empty_list_selected_nav_underflows :
    (⟨some 0, ([] : List Nat)⟩ : StateList Nat).next = none ∧
    (⟨some 0, ([] : List Nat)⟩ : StateList Nat).previous = none ∧
    runKeys App.new
      [(KeyCode.Down, KeyModifiers.NONE), (KeyCode.Down, KeyModifiers.NONE)] =
      Step.crash := by
  decide

/-- C3 fails on the code: after the keys `p`, `a`, `Esc` from the
initial state, the buffer is empty (0 characters) but `input_width`
is still 1, because the `Esc` arm of `run_app` clears `popup_input`
without calling `set_input_width`.  The cache has drifted from the
buffer after a key transition. -/
theorem cancel_leaves_stale_width :
    runKeys App.new
      [(KeyCode.Char 'p', KeyModifiers.NONE),
       (KeyCode.Char 'a', KeyModifiers.NONE),
       (KeyCode.Esc, KeyModifiers.NONE)] =
    Step.cont
      { popup_input := []
        input_mode := InputMode.Normal
        input_width := 1
        items := ⟨none, []⟩
        show_popup := false } := by
  decide

/-- C9 fails on the code: in `Editing` mode with the popup hidden and
buffer `"a"`, the backspace key still pops the buffer and recomputes
the width (its arm has no `show_popup` guard), while a character key
is correctly guarded and leaves the state unchanged.  The visibility
guard is not applied uniformly. -/
theorem backspace_unguarded_mutates_hidden_popup :
    handle_key hiddenEditingApp KeyCode.Backspace KeyModifiers.NONE =
      Step.cont
        { popup_input := []
          input_mode := InputMode.Editing
          input_width := 0
          items := ⟨none, []⟩
          show_popup := false } ∧
    handle_key hiddenEditingApp (KeyCode.Char 'x') KeyModifiers.NONE =
      Step.cont hiddenEditingApp := by
  decide

/-- C5: in `Editing` mode with the popup visible, `Esc` (no modifier)
empties the buffer, sets the mode to `Normal` and hides the popup,
leaving every other field — in particular the item list with its
contents and selection, and also `input_width` — unchanged (the
record update touches only `popup_input`, `input_mode` and
`show_popup`). -/
theorem esc_cancels_editing (a : App) (h1 : a.input_mode = InputMode.Editing)
    (h2 : a.show_popup = true) :
    handle_key a KeyCode.Esc KeyModifiers.NONE =
      Step.cont
        { a with popup_input := [], input_mode := InputMode.Normal,
                 show_popup := false } := by
  simp [handle_key, h1, editingStep, h2]

/-- Witness for `esc_cancels_editing` at a concrete editing state with
buffer `"abc"` and a selected one-item list. -/
theorem esc_cancels_editing_witness :
    handle_key editingAbcApp KeyCode.Esc KeyModifiers.NONE =
      Step.cont
        { editingAbcApp with popup_input := [], input_mode := InputMode.Normal,
                             show_popup := false } :=
  esc_cancels_editing editingAbcApp rfl rfl

/-- Helper for C1: a single iteration of the event loop preserves the
mode/popup synchronization invariant. -/
theorem handle_key_sync (a : App) (k : KeyCode) (m : KeyModifiers)
    (hinv : a.show_popup = a.input_mode.isEditing) :
    stepSync (handle_key a k m) := by
  cases a with
  | mk pin mode w its sp =>
    cases mode <;> cases k <;> cases m <;>
      simp only [handle_key, normalStep, editingStep, stepItems,
        InputMode.isEditing] at hinv ⊢ <;>
      first
        | (split <;>
            simp_all [stepSync, App.set_input_width, App.push, InputMode.isEditing])
        | simp_all [stepSync, App.set_input_width, App.push, InputMode.isEditing]

/-- Helper for C1: every state the event loop continues with, starting
from a synchronized state, is synchronized. -/
theorem runKeys_sync (ks : List (KeyCode × KeyModifiers)) (a : App)
    (hinv : a.show_popup = a.input_mode.isEditing) :
    stepSync (runKeys a ks) := by
  induction ks generalizing a with
  | nil => simpa [runKeys, stepSync] using hinv
  | cons k ks ih =>
      have h1 := handle_key_sync a k.1 k.2 hinv
      simp only [runKeys]
      cases hs : handle_key a k.1 k.2 with
      | cont a2 =>
          rw [hs] at h1
          exact ih a2 h1
      | quit => exact trivial
      | crash => exact trivial

/-- C1: in every state the event loop reaches from the initial state
`App.new` by any sequence of key transitions (so in particular both
before and after every single transition of any run, each such state
being reached by a prefix of the run), the popup is visible if and
only if the mode is `Editing`. -/
theorem popup_visible_iff_editing (ks : List (KeyCode × KeyModifiers)) (a2 : App)
    (h : runKeys App.new ks = Step.cont a2) :
    a2.show_popup = true ↔ a2.input_mode = InputMode.Editing := by
  have h1 := runKeys_sync ks App.new rfl
  rw [h] at h1
  cases hm : a2.input_mode <;>
    simp_all [stepSync, InputMode.isEditing]

/-- Witness for `popup_visible_iff_editing`: the run consisting of the
single key `p` ends in the state `afterP`, where both sides of the
equivalence hold. -/
theorem popup_visible_iff_editing_witness :
    afterP.show_popup = true ↔ afterP.input_mode = InputMode.Editing :=
  popup_visible_iff_editing [(KeyCode.Char 'p', KeyModifiers.NONE)] afterP (by decide)

/-- C6 fails on the code: when every terminal-driver call succeeds but
the event loop itself reports an I/O failure, `fn main` catches the
error of `run_app`, prints it, and then returns `Ok(())` — so the
process exits with code 0, not a non-zero code. -/
theorem loop_failure_exits_zero :
    mainModel { quietEnv with run_app_result := Except.error "read failed" } =
      ⟨0, ["read failed"]⟩ :=
  rfl

/-- C6 amended: a user-initiated quit exits 0 with nothing printed; a
failure in any of the six setup/teardown terminal calls propagates
through `?` and exits 1 with the diagnostic printed; a failure of the
event loop prints the diagnostic but still exits 0 when teardown
succeeds, and when teardown also fails the process exits 1 printing
only the teardown diagnostic. -/
theorem mainModel_exit_codes (e e2 : String) :
    mainModel quietEnv = ⟨0, []⟩ ∧
    mainModel { quietEnv with enable_raw_mode := Except.error e } = ⟨1, [e]⟩ ∧
    mainModel { quietEnv with enter_alt_screen := Except.error e } = ⟨1, [e]⟩ ∧
    mainModel { quietEnv with terminal_new := Except.error e } = ⟨1, [e]⟩ ∧
    mainModel { quietEnv with disable_raw_mode := Except.error e } = ⟨1, [e]⟩ ∧
    mainModel { quietEnv with leave_alt_screen := Except.error e } = ⟨1, [e]⟩ ∧
    mainModel { quietEnv with show_cursor := Except.error e } = ⟨1, [e]⟩ ∧
    mainModel { quietEnv with run_app_result := Except.error e } = ⟨0, [e]⟩ ∧
    mainModel { quietEnv with run_app_result := Except.error e,
                              disable_raw_mode := Except.error e2 } = ⟨1, [e2]⟩ :=
  ⟨rfl, rfl, rfl, rfl, rfl, rfl, rfl, rfl, rfl⟩

/-- Instantiation of `mainModel_exit_codes` at concrete diagnostics. -/
theorem mainModel_exit_codes_witness :
    mainModel quietEnv = ⟨0, []⟩ ∧
    mainModel { quietEnv with enable_raw_mode := Except.error "boom" } = ⟨1, ["boom"]⟩ ∧
    mainModel { quietEnv with enter_alt_screen := Except.error "boom" } = ⟨1, ["boom"]⟩ ∧
    mainModel { quietEnv with terminal_new := Except.error "boom" } = ⟨1, ["boom"]⟩ ∧
    mainModel { quietEnv with disable_raw_mode := Except.error "boom" } = ⟨1, ["boom"]⟩ ∧
    mainModel { quietEnv with leave_alt_screen := Except.error "boom" } = ⟨1, ["boom"]⟩ ∧
    mainModel { quietEnv with show_cursor := Except.error "boom" } = ⟨1, ["boom"]⟩ ∧
    mainModel { quietEnv with run_app_result := Except.error "boom" } = ⟨0, ["boom"]⟩ ∧
    mainModel { quietEnv with run_app_result := Except.error "boom",
                              disable_raw_mode := Except.error "late" } = ⟨1, ["late"]⟩ :=
  mainModel_exit_codes "boom" "late"

/-- Helper for C7/C8: on a selected index that is in range, `next`
advances the selection by one modulo the length and never underflows. -/
theorem next_mod {T : Type} (items : List T) (i : Nat) (h : i < items.length) :
    StateList.next (⟨some i, items⟩ : StateList T) =
      some ⟨some ((i + 1) % items.length), items⟩ := by
  have hpos : 1 ≤ items.length := Nat.lt_of_le_of_lt (Nat.zero_le i) h
  have key : (if items.length - 1 ≤ i then 0 else i + 1) = (i + 1) % items.length := by
    rcases Nat.lt_or_ge i (items.length - 1) with hlt | hge
    · rw [if_neg (Nat.not_le.mpr hlt), Nat.mod_eq_of_lt (by omega)]
    · have hi : i = items.length - 1 := by omega
      rw [if_pos hge, hi]
      have hlen : items.length - 1 + 1 = items.length := by omega
      rw [hlen, Nat.mod_self]
  show (usizeSub items.length 1).map _ = _
  rw [usizeSub, if_pos hpos, Option.map_some']
  rw [key]

/-- Helper for C7: iterating `next` from an in-range selected index
adds the iteration count to the index modulo the length. -/
theorem nextN_mod {T : Type} (items : List T) (k : Nat) :
    ∀ i : Nat, i < items.length →
      nextN k (⟨some i, items⟩ : StateList T) =
        some ⟨some ((i + k) % items.length), items⟩ := by
  induction k with
  | zero =>
      intro i h
      simp [nextN, Nat.mod_eq_of_lt h]
  | succ n ih =>
      intro i h
      have hpos : 0 < items.length := Nat.lt_of_le_of_lt (Nat.zero_le i) h
      show (StateList.next (⟨some i, items⟩ : StateList T)).bind (nextN n) = _
      rw [next_mod items i h, Option.some_bind,
        ih ((i + 1) % items.length) (Nat.mod_lt _ hpos)]
      rw [Nat.mod_add_mod]
      have harith : i + 1 + n = i + (n + 1) := by omega
      rw [harith]

/-- C7: for a list with an in-range selected index (the data-model
invariant: the list is non-empty and `selected < length`), calling
`next` exactly `length` times returns the whole list state — items
and selected index — to its starting value, with no underflow. -/
theorem next_len_times_cycles {T : Type} (l : StateList T) (i : Nat)
    (hsel : l.selected = some i) (hlt : i < l.items.length) :
    nextN l.items.length l = some l := by
  obtain ⟨sel, items⟩ := l
  obtain rfl : sel = some i := hsel
  show nextN items.length (⟨some i, items⟩ : StateList T) = some ⟨some i, items⟩
  rw [nextN_mod items items.length i hlt, Nat.add_mod_right,
    Nat.mod_eq_of_lt hlt]

/-- Witness for `next_len_times_cycles` on the three-element list
`[10, 20, 30]` with index 1 selected. -/
theorem next_len_times_cycles_witness :
    nextN (⟨some 1, [10, 20, 30]⟩ : StateList Nat).items.length
        (⟨some 1, [10, 20, 30]⟩ : StateList Nat) =
      some ⟨some 1, [10, 20, 30]⟩ :=
  next_len_times_cycles ⟨some 1, [10, 20, 30]⟩ 1 rfl (by decide)

/-- C8: for a list with an in-range selected index (the data-model
invariant), `next` followed by `previous` restores the whole list
state, in particular the selected index, with no underflow. -/
theorem next_previous_identity {T : Type} (l : StateList T) (i : Nat)
    (hsel : l.selected = some i) (hlt : i < l.items.length) :
    l.next.bind StateList.previous = some l := by
  obtain ⟨sel, items⟩ := l
  obtain rfl : sel = some i := hsel
  have hlen : i < items.length := hlt
  have hpos : 1 ≤ items.length := Nat.lt_of_le_of_lt (Nat.zero_le i) hlen
  show ((⟨some i, items⟩ : StateList T).next).bind StateList.previous =
    some ⟨some i, items⟩
  rw [next_mod items i hlen, Option.some_bind]
  rcases Nat.lt_or_ge (i + 1) items.length with hlt2 | hge
  · rw [Nat.mod_eq_of_lt hlt2]
    show StateList.previous (⟨some (i + 1), items⟩ : StateList T) = _
    rw [StateList.previous]
    simp
  · have hi : i + 1 = items.length := by omega
    rw [hi, Nat.mod_self]
    show StateList.previous (⟨some 0, items⟩ : StateList T) = _
    rw [StateList.previous]
    have hiv : items.length - 1 = i := by omega
    simp [usizeSub, hpos, hiv]

/-- Witness for `next_previous_identity` on the three-element list
`[1, 2, 3]` with the last index selected (the wraparound case). -/
theorem next_previous_identity_witness :
    ((⟨some 2, [1, 2, 3]⟩ : StateList Nat).next).bind StateList.previous =
      some ⟨some 2, [1, 2, 3]⟩ :=
  next_previous_identity ⟨some 2, [1, 2, 3]⟩ 2 rfl (by decide)
